import Mathlib

/-!
Verification development for the mytxs choir-membership backend.

This file gives a shallow embedding of the access-control resolution engine of the
repository (`mytxs/models.py` and `mytxs/utils/modelUtils.py`) and proves, or refutes,
the stated properties about it.

Modelling conventions:
* Dates are integers (`Dato := Int`); only their total order matters to the code.
* Database rows are structures carrying their primary key (`id : Nat`); a database
  state is a record of lists of rows (`DB`).  Querysets are modelled as lists of
  primary keys: a Django queryset is determined, for the properties at stake, by
  which rows belong to it.
* Django `filter`/`exclude` calls with several conditions on one multi-valued
  relation constrain the same joined row; this is mirrored by a single existential
  (`List.any`) over the joined table.
* Raised exceptions (AttributeError, KeyError, ValidationError, the fatal lookup
  errors of section 7 of the spec) are mirrored by `Option`/`Except` results.
* The reference date `datetime.date.today()` is threaded explicitly as a `dato`/`idag`
  argument, since the code recomputes it on every call.
-/

namespace Mytxs

/-- Dates, modelled as integers: the code only compares them. -/
abbrev Dato := Int

/-- `Kor` model: a choir, identified by its primary key, with its short title. -/
structure Kor where
  id : Nat
  kortTittel : String
deriving DecidableEq

/-- `Verv` model: a role, with name and nullable owning choir (foreign key by pk). -/
structure Verv where
  id : Nat
  navn : String
  kor : Option Nat
deriving DecidableEq

/-- `VervInnehavelse` model: a time-bounded assignment of a member to a role.
`start` is required, `slutt` nullable (open-ended). -/
structure VervInnehavelse where
  id : Nat
  medlem : Nat
  verv : Nat
  start : Dato
  slutt : Option Dato
deriving DecidableEq

/-- `Tilgang` model: a named access right, with nullable owning choir and the
`sjekkheftetSynlig` flag used by the navigation builder. -/
structure Tilgang where
  id : Nat
  navn : String
  kor : Option Nat
  sjekkheftetSynlig : Bool
deriving DecidableEq

/-- The keys of the `Medlem.innstillinger` JSON map that the engine reads. -/
structure Innstillinger where
  disableTilganger : Bool
  tversAvKor : Bool
  bareAktive : Bool
deriving DecidableEq

/-- `Medlem` model, restricted to the fields the access-control engine reads. -/
structure Medlem where
  id : Nat
  innstillinger : Innstillinger
deriving DecidableEq

/-- `Dekorasjon` model (only its owning choir is access-control relevant). -/
structure Dekorasjon where
  id : Nat
  navn : String
  kor : Option Nat
deriving DecidableEq

/-- `DekorasjonInnehavelse` model: owning choir reached via `dekorasjon__kor`. -/
structure DekorasjonInnehavelse where
  id : Nat
  medlem : Nat
  dekorasjon : Nat
  start : Dato
deriving DecidableEq

/-- `Turne` model: has `start`/`slutt` dates validated by `validateStartSlutt`. -/
structure Turne where
  id : Nat
  navn : String
  kor : Option Nat
  start : Dato
  slutt : Option Dato
deriving DecidableEq

/-- The entity types of the modelled fragment of the schema.  `Logg`, `Hendelse` and
`Oppmøte` (audit log, events, attendance) are outside the modelled universe. -/
inductive ModelT where
  | Medlem
  | Kor
  | Verv
  | VervInnehavelse
  | Tilgang
  | Dekorasjon
  | DekorasjonInnehavelse
  | Turne
deriving DecidableEq

/-- The two form-field kinds `redigerTilgangQueryset` distinguishes
(`forms.ModelChoiceField` and `forms.ModelMultipleChoiceField`). -/
inductive FieldT where
  | choice
  | multipleChoice
deriving DecidableEq

/-- A database state: one list of rows per modelled table, plus the
`Tilgang.verv` many-to-many table as a list of `(tilgang pk, verv pk)` pairs. -/
structure DB where
  kor : List Kor
  medlemmer : List Medlem
  verv : List Verv
  vervInnehavelser : List VervInnehavelse
  tilganger : List Tilgang
  tilgangVerv : List (Nat × Nat)
  dekorasjoner : List Dekorasjon
  dekorasjonInnehavelser : List DekorasjonInnehavelse
  turneer : List Turne

/-- Row lookup by primary key in the `Kor` table. -/
def korAv (db : DB) (pk : Nat) : Option Kor := db.kor.find? (fun k => k.id == pk)

/-- Row lookup by primary key in the `Verv` table. -/
def vervAv (db : DB) (pk : Nat) : Option Verv := db.verv.find? (fun v => v.id == pk)

/-- Row lookup by primary key in the `VervInnehavelse` table. -/
def viAv (db : DB) (pk : Nat) : Option VervInnehavelse :=
  db.vervInnehavelser.find? (fun vi => vi.id == pk)

/-- Row lookup by primary key in the `Dekorasjon` table. -/
def dekorasjonAv (db : DB) (pk : Nat) : Option Dekorasjon :=
  db.dekorasjoner.find? (fun d => d.id == pk)

/-- Row lookup by primary key in the `DekorasjonInnehavelse` table. -/
def diAv (db : DB) (pk : Nat) : Option DekorasjonInnehavelse :=
  db.dekorasjonInnehavelser.find? (fun d => d.id == pk)

/-- `model.objects.all()`, as the list of primary keys of the table of a model. -/
def allPks (db : DB) : ModelT → List Nat
  | ModelT.Medlem => db.medlemmer.map (fun m => m.id)
  | ModelT.Kor => db.kor.map (fun k => k.id)
  | ModelT.Verv => db.verv.map (fun v => v.id)
  | ModelT.VervInnehavelse => db.vervInnehavelser.map (fun vi => vi.id)
  | ModelT.Tilgang => db.tilganger.map (fun t => t.id)
  | ModelT.Dekorasjon => db.dekorasjoner.map (fun d => d.id)
  | ModelT.DekorasjonInnehavelse => db.dekorasjonInnehavelser.map (fun d => d.id)
  | ModelT.Turne => db.turneer.map (fun t => t.id)

/-! ## mytxs/utils/modelUtils.py -/

/-- `vervInnehavelseAktiv`: the Q object
`Q(start__lte=dato) & (Q(slutt=None) | Q(slutt__gte=dato))`, as a predicate on the
`start`/`slutt` pair of a role holding.  A `slutt__gte` lookup on a NULL `slutt` is
false, exactly as in SQL. -/
def vervInnehavelseAktivQ (start : Dato) (slutt : Option Dato) (dato : Dato) : Bool :=
  decide (start ≤ dato) &&
    ((slutt == none) || (match slutt with
      | some s => decide (s ≥ dato)
      | none => false))

/-- The active-interval predicate applied to a `VervInnehavelse` row. -/
def viAktiv (vi : VervInnehavelse) (dato : Dato) : Bool :=
  vervInnehavelseAktivQ vi.start vi.slutt dato

/-- `stemmegruppeVervRegex = '^[12][12]?[SATB]$'` as a direct character test. -/
def stemmegruppeRegexMatch (navn : String) : Bool :=
  match navn.toList with
  | [a, b] =>
    (a == '1' || a == '2') && (b == 'S' || b == 'A' || b == 'T' || b == 'B')
  | [a, b, c] =>
    (a == '1' || a == '2') && (b == '1' || b == '2') &&
      (c == 'S' || c == 'A' || c == 'T' || c == 'B')
  | _ => false

/-- `stemmegruppeVerv(...)` name condition: the regex, optionally
`'ukjentStemmegruppe'` (default on), optionally `'Dirigent'` (default off). -/
def stemmegruppeVervNavn (navn : String) (includeUkjent includeDirr : Bool) : Bool :=
  stemmegruppeRegexMatch navn ||
    (includeUkjent && navn == "ukjentStemmegruppe") ||
    (includeDirr && navn == "Dirigent")

/-- `isStemmegruppeVervNavn(navn, includeUkjentStemmegruppe=True)` from modelUtils. -/
def isStemmegruppeVervNavn (navn : String) (includeUkjent : Bool) : Bool :=
  stemmegruppeRegexMatch navn || (includeUkjent && navn == "ukjentStemmegruppe")

/-- `getPathToKor` of a modelled entity type, as the function that resolves the
owning choir of a row: `verv__kor` for `VervInnehavelse`, `dekorasjon__kor` for
`DekorasjonInnehavelse`, none (special) for `Medlem`, the direct `kor` field for
every other model.  (`Oppmøte`, path `hendelse__kor`, is outside the universe.) -/
def korAvPk (db : DB) : ModelT → Nat → Option Nat
  | ModelT.VervInnehavelse, pk =>
    (viAv db pk).bind (fun vi => (vervAv db vi.verv).bind (fun v => v.kor))
  | ModelT.DekorasjonInnehavelse, pk =>
    (diAv db pk).bind (fun d => (dekorasjonAv db d.dekorasjon).bind (fun dk => dk.kor))
  | ModelT.Medlem, _ => none
  | ModelT.Kor, pk => some pk
  | ModelT.Verv, pk => (vervAv db pk).bind (fun v => v.kor)
  | ModelT.Tilgang, pk => (db.tilganger.find? (fun t => t.id == pk)).bind (fun t => t.kor)
  | ModelT.Dekorasjon, pk => (dekorasjonAv db pk).bind (fun d => d.kor)
  | ModelT.Turne, pk => (db.turneer.find? (fun t => t.id == pk)).bind (fun t => t.kor)

/-- `getInstancesForKor(model, kor)`: all instances of the model belonging to one of
the given choirs.  For `Medlem` this is the member filter
`filter(stemmegruppeVerv('vervInnehavelser__verv', includeDirr=True),
vervInnehavelser__verv__kor__in=kor)` — both conditions on the same joined
role-holding row, with NO activity condition.  For `Kor` the argument itself.
Otherwise a filter on the `getPathToKor` path being in the given choirs. -/
def getInstancesForKor (db : DB) (model : ModelT) (korIds : List Nat) : List Nat :=
  match model with
  | ModelT.Medlem =>
    (db.medlemmer.map (fun m => m.id)).filter (fun pk =>
      db.vervInnehavelser.any (fun vi =>
        vi.medlem == pk &&
          (match vervAv db vi.verv with
           | some v =>
             stemmegruppeVervNavn v.navn true true &&
               (match v.kor with
                | some k => korIds.contains k
                | none => false)
           | none => false)))
  | ModelT.Kor => korIds
  | _ =>
    (allPks db model).filter (fun pk =>
      match korAvPk db model pk with
      | some k => korIds.contains k
      | none => false)

/-- Error codes of the `ValidationError`s raised by the modelled validators. -/
inductive FeilKode where
  | invalidDateOrder
  | overlappingVervInnehavelse
deriving DecidableEq

/-- `validateStartSlutt(instance, canEqual=True)`: does nothing when `slutt` is not
set; with `canEqual` it raises `invalidDateOrder` when `start >= slutt`, without it
when `start > slutt`. -/
def validateStartSlutt (start : Dato) (slutt : Option Dato) (canEqual : Bool) :
    Option FeilKode :=
  match slutt with
  | none => none
  | some s =>
    if canEqual then
      if s ≤ start then some FeilKode.invalidDateOrder else none
    else
      if s < start then some FeilKode.invalidDateOrder else none

/-! ## mytxs/consts.py (not part of the sources; modelled from the spec) -/

/-- Modelled from the spec: `consts.modelTilTilgangNavn`, the missing static table
mapping an entity type to the name of the access right required to edit it
(spec section 4.5 step 3, section 9: "type to required right name").  The spec fixes
`Medlem` to the `medlemsdata` right (4.5 step 2); the remaining names are the
right names the navigation builder pairs with the corresponding list pages
(`verv`, `vervInnehavelse`, `dekorasjon`, `dekorasjonInnehavelse`, `tilgang`,
`turne`).  `Kor` has no entry: an unknown type is a fatal lookup error (spec
section 7), hence `none`. -/
def modelTilTilgangNavn : ModelT → Option String
  | ModelT.Medlem => some "medlemsdata"
  | ModelT.Kor => none
  | ModelT.Verv => some "verv"
  | ModelT.VervInnehavelse => some "vervInnehavelse"
  | ModelT.Tilgang => some "tilgang"
  | ModelT.Dekorasjon => some "dekorasjon"
  | ModelT.DekorasjonInnehavelse => some "dekorasjonInnehavelse"
  | ModelT.Turne => some "turne"

/-- Modelled from the spec: `consts.korAvhengerAv` with its `.get(_, 'Kor')` default,
the missing table naming, for an entity type, the related type its owning choir is
derived from (spec 4.5 step 1: "the relation that directly determines which choir
the primary entity belongs to").  It follows the `getPathToKor` paths of
modelUtils.py: `VervInnehavelse` depends on `Verv`, `DekorasjonInnehavelse` on
`Dekorasjon`, everything else directly on `Kor`. -/
def korAvhengerAvD : ModelT → ModelT
  | ModelT.VervInnehavelse => ModelT.Verv
  | ModelT.DekorasjonInnehavelse => ModelT.Dekorasjon
  | _ => ModelT.Kor

/-- Modelled from the spec: `consts.modelWithRelated`, the missing table mapping a
page entity type to the related types whose edit rights imply view rights on the
page (spec 4.6 step 3: "editing RoleHolding implies viewing Member and Role pages";
the source comment at the use site lists vervInnehavelse, dekorasjonInnehavelse and
turne as the related forms of the member page). -/
def modelWithRelated : ModelT → List ModelT
  | ModelT.Medlem =>
    [ModelT.VervInnehavelse, ModelT.DekorasjonInnehavelse, ModelT.Turne]
  | ModelT.Verv => [ModelT.VervInnehavelse]
  | ModelT.Dekorasjon => [ModelT.DekorasjonInnehavelse]
  | _ => []

/-- Modelled from the spec: `consts.bareKorKortTittel`, the missing fixed list of
choir short titles (spec 4.7: "choir-roster sections always visible, organized
per-choir"; the choir table is an immutable reference set, so the list is modelled
as the short titles of the `Kor` table). -/
def bareKorKortTittel (db : DB) : List String := db.kor.map (fun k => k.kortTittel)

/-- Modelled from the spec: `consts.bareKorKortTittelTKSRekkefølge`, the same choir
short titles in the ordering used for TKS members.  Only the key set matters to the
stated properties; the reordering is modelled as the reverse list. -/
def bareKorKortTittelTKS (db : DB) : List String :=
  (db.kor.map (fun k => k.kortTittel)).reverse

/-! ## Medlem access-right resolution (mytxs/models.py) -/

/-- `Medlem.faktiskeTilganger`: the access rights linked, through the
`Tilgang.verv` many-to-many relation, to a role for which the member has a role
holding active at the reference date
(`Tilgang.objects.filter(vervInnehavelseAktiv('verv__vervInnehavelser'),
verv__vervInnehavelser__medlem=self).distinct()`). -/
def faktiskeTilganger (db : DB) (m : Medlem) (dato : Dato) : List Tilgang :=
  db.tilganger.filter (fun t =>
    db.vervInnehavelser.any (fun vi =>
      vi.medlem == m.id && viAktiv vi dato && db.tilgangVerv.contains (t.id, vi.verv)))

/-- `Medlem.tilganger`: the held rights after the settings filters — empty when
`disableTilganger` is set, otherwise `faktiskeTilganger`, with the right named
`tversAvKor` excluded unless the `tversAvKor` setting is enabled. -/
def tilganger (db : DB) (m : Medlem) (dato : Dato) : List Tilgang :=
  if m.innstillinger.disableTilganger then []
  else if !m.innstillinger.tversAvKor then
    (faktiskeTilganger db m dato).filter (fun t => !(t.navn == "tversAvKor"))
  else faktiskeTilganger db m dato

/-- `self.tilganger.filter(navn=navn).exists()`. -/
def harTilgangNavn (db : DB) (m : Medlem) (dato : Dato) (navn : String) : Bool :=
  (tilganger db m dato).any (fun t => t.navn == navn)

/-- `Kor.objects.filter(tilganger__in=ts)` as a list of choir primary keys: the
choirs owning one of the given rights. -/
def korsMedTilganger (db : DB) (ts : List Tilgang) : List Nat :=
  (db.kor.filter (fun k => ts.any (fun t => t.kor == some k.id))).map (fun k => k.id)

/-- `self.tilganger.filter(navn='tilgang').values_list('kor', flat=True)`: the
choirs in which the member holds the meta access-management right.  NULL choir
values never match a SQL `IN`, so they are dropped. -/
def tilgangTilgangKors (db : DB) (m : Medlem) (dato : Dato) : List Nat :=
  ((tilganger db m dato).filter (fun t => t.navn == "tilgang")).filterMap
    (fun t => t.kor)

/-- `kor__in=ks` on a nullable choir value: a NULL choir matches nothing. -/
def korInB (kor : Option Nat) (ks : List Nat) : Bool :=
  match kor with
  | some k => ks.contains k
  | none => false

/-- `tilganger__in=Tilgang.objects.exclude(pk__in=self.tilganger)` at a role:
whether the role grants some access right the member does not currently hold. -/
def grantsUnheld (db : DB) (m : Medlem) (dato : Dato) (vervId : Nat) : Bool :=
  db.tilganger.any (fun t =>
    db.tilgangVerv.contains (t.id, vervId) &&
      !((tilganger db m dato).any (fun h => h.id == t.id)))

/-- The `bareAktiveDecorator` of modelUtils.py: when the resulting queryset is over
`Medlem` and the member has the `bareAktive` setting, the result is filtered to
members with a currently active voice-group role holding
(`qs.filter(vervInnehavelseAktiv(), stemmegruppeVerv('vervInnehavelser__verv'))`,
director roles not included). -/
def bareAktiveFilter (db : DB) (m : Medlem) (dato : Dato) (resModel : ModelT)
    (qs : List Nat) : List Nat :=
  if resModel = ModelT.Medlem ∧ m.innstillinger.bareAktive = true then
    qs.filter (fun pk =>
      db.vervInnehavelser.any (fun vi =>
        vi.medlem == pk && viAktiv vi dato &&
          (match vervAv db vi.verv with
           | some v => stemmegruppeVervNavn v.navn true false
           | none => false)))
  else qs

/-- Body of `Medlem.redigerTilgangQueryset(model, resModel=None, fieldType=None)`
before the `bareAktiveDecorator` is applied.  `none` is the fatal
`consts.modelTilTilgangNavn` lookup error for an unknown entity type. -/
def redigerTilgangQuerysetCore (db : DB) (m : Medlem) (dato : Dato) (model : ModelT)
    (resModelOpt : Option ModelT) (fieldType : Option FieldT) : Option (List Nat) :=
  let resModel := resModelOpt.getD model
  if resModelOpt ≠ none ∧ harTilgangNavn db m dato "tversAvKor" = true ∧
      model ≠ resModel ∧
      ((fieldType = some FieldT.choice ∧ korAvhengerAvD model ≠ resModel) ∨
        fieldType = some FieldT.multipleChoice) then
    some (allPks db resModel)
  else if model = ModelT.Medlem then
    let medlemmer := getInstancesForKor db resModel
      (korsMedTilganger db
        ((tilganger db m dato).filter (fun t => t.navn == "medlemsdata")))
    if resModel = ModelT.Medlem ∧ harTilgangNavn db m dato "tversAvKor" = true then
      some (medlemmer ++
        (db.medlemmer.map (fun x => x.id)).filter (fun pk =>
          !(db.vervInnehavelser.any (fun vi =>
            vi.medlem == pk &&
              (match vervAv db vi.verv with
               | some v => stemmegruppeVervNavn v.navn true false
               | none => false)))))
    else some medlemmer
  else
    match modelTilTilgangNavn model with
    | none => none
    | some tNavn =>
      let returnQueryset := getInstancesForKor db resModel
        (korsMedTilganger db
          ((tilganger db m dato).filter (fun t => t.navn == tNavn)))
      if (model = ModelT.Verv ∨ model = ModelT.VervInnehavelse) ∧
          (resModel = ModelT.Verv ∨ resModel = ModelT.VervInnehavelse) then
        if resModel = ModelT.Verv then
          some (returnQueryset.filter (fun pk =>
            !(!korInB ((vervAv db pk).bind (fun v => v.kor))
                  (tilgangTilgangKors db m dato) &&
              grantsUnheld db m dato pk)))
        else
          some (returnQueryset.filter (fun pk =>
            !(!korInB ((viAv db pk).bind (fun vi =>
                    (vervAv db vi.verv).bind (fun v => v.kor)))
                  (tilgangTilgangKors db m dato) &&
              (match viAv db pk with
               | some vi => grantsUnheld db m dato vi.verv
               | none => false))))
      else some returnQueryset

/-- `Medlem.redigerTilgangQueryset`, with the `bareAktiveDecorator` applied to the
result (whose model is `resModel`, defaulting to `model`). -/
def redigerTilgangQueryset (db : DB) (m : Medlem) (dato : Dato) (model : ModelT)
    (resModelOpt : Option ModelT) (fieldType : Option FieldT) : Option (List Nat) :=
  (redigerTilgangQuerysetCore db m dato model resModelOpt fieldType).map
    (bareAktiveFilter db m dato (resModelOpt.getD model))

/-- Body of `Medlem.sideTilgangQueryset(model)` before the decorator.  The `Logg`
branch of the source is outside the modelled universe (`Logg` is not a `ModelT`).
The related-models branch calls the decorated `redigerTilgangQueryset`, exactly as
the source does through `self.`. -/
def sideTilgangQuerysetCore (db : DB) (m : Medlem) (dato : Dato) (model : ModelT) :
    Option (List Nat) :=
  if harTilgangNavn db m dato "tversAvKor" = true then
    some (allPks db model)
  else
    let relatedTilgangNavn := (modelWithRelated model).filterMap modelTilTilgangNavn
    let relaterteTilganger := (tilganger db m dato).filter (fun t =>
      relatedTilgangNavn.contains t.navn)
    if relatedTilgangNavn ≠ [] ∧ relaterteTilganger ≠ [] then
      (redigerTilgangQueryset db m dato model none none).map (fun r =>
        getInstancesForKor db model (korsMedTilganger db relaterteTilganger) ++ r)
    else
      redigerTilgangQueryset db m dato model none none

/-- `Medlem.sideTilgangQueryset`, with the `bareAktiveDecorator` applied to the
result (whose model is `model`). -/
def sideTilgangQueryset (db : DB) (m : Medlem) (dato : Dato) (model : ModelT) :
    Option (List Nat) :=
  (sideTilgangQuerysetCore db m dato model).map (bareAktiveFilter db m dato model)

/-! ## VervInnehavelse validation (mytxs/models.py) -/

/-- The `VervInnehavelse.aktiv` property:
`self.start <= today and (self.slutt == None or today <= self.slutt)`. -/
def VervInnehavelse.aktiv (vi : VervInnehavelse) (idag : Dato) : Bool :=
  decide (vi.start ≤ idag) &&
    ((vi.slutt == none) || (match vi.slutt with
      | some s => decide (idag ≤ s)
      | none => false))

/-- `VervInnehavelse.clean`: first `validateStartSlutt` (with its `canEqual=True`
default), then the overlap checks — against every other stemmegruppe role holding
of the same member in the same choir when the role is a voice-group role, else
against every other holding of the identical role.  A holding whose role is not in
the database corresponds to the `hasattr(self, 'verv')` guard being false. -/
def VervInnehavelse.clean (db : DB) (vi : VervInnehavelse) : Option FeilKode :=
  match validateStartSlutt vi.start vi.slutt true with
  | some e => some e
  | none =>
    match vervAv db vi.verv with
    | none => none
    | some v =>
      if isStemmegruppeVervNavn v.navn true then
        if db.vervInnehavelser.any (fun o =>
            !(o.id == vi.id) &&
            (match vervAv db o.verv with
             | some ov =>
               stemmegruppeVervNavn ov.navn true false && (ov.kor == v.kor)
             | none => false) &&
            !(match o.slutt with
              | some s => decide (s < vi.start)
              | none => false) &&
            !(match vi.slutt with
              | some e => decide (e < o.start)
              | none => false) &&
            (o.medlem == vi.medlem)) then
          some FeilKode.overlappingVervInnehavelse
        else none
      else
        if db.vervInnehavelser.any (fun o =>
            !(o.id == vi.id) &&
            !(match o.slutt with
              | some s => decide (s < vi.start)
              | none => false) &&
            !(match vi.slutt with
              | some e => decide (e < o.start)
              | none => false) &&
            (o.medlem == vi.medlem) && (o.verv == vi.verv)) then
          some FeilKode.overlappingVervInnehavelse
        else none

/-- `VervInnehavelse.save`: runs `self.clean()` first; a `ValidationError` aborts
the save, so the database is unchanged on error.  On success the row is written
(insert or update by primary key).  The cascading event-attendance updates of the
source concern `Hendelse`/`Oppmøte`, which are outside the modelled universe. -/
def VervInnehavelse.save (db : DB) (vi : VervInnehavelse) : Except FeilKode DB :=
  match VervInnehavelse.clean db vi with
  | some e => Except.error e
  | none =>
    Except.ok { db with vervInnehavelser :=
      (db.vervInnehavelser.filter (fun o => !(o.id == vi.id))) ++ [vi] }

/-- `Turne.clean`: `validateStartSlutt(self)` with its `canEqual=True` default. -/
def Turne.clean (t : Turne) : Option FeilKode :=
  validateStartSlutt t.start t.slutt true

/-! ## Navigation visibility (Medlem.navBar, mytxs/models.py) -/

/-- `Medlem.firstStemmegruppeVervInnehavelse`: the first (by start date)
stemmegruppe role holding of the member in one of the grand choirs TSS/TKS. -/
def firstStemmegruppeVI (db : DB) (m : Medlem) : Option VervInnehavelse :=
  (db.vervInnehavelser.filter (fun vi =>
    vi.medlem == m.id &&
      (match vervAv db vi.verv with
       | some v =>
         stemmegruppeVervNavn v.navn true false &&
           (match v.kor.bind (korAv db) with
            | some k => k.kortTittel == "TSS" || k.kortTittel == "TKS"
            | none => false)
       | none => false))).foldl
    (fun acc vi =>
      match acc with
      | none => some vi
      | some a => if vi.start < a.start then some vi else some a)
    none

/-- `Medlem.storkor`: the choir of the first grand-choir stemmegruppe holding;
`none` models the empty string returned when there is none. -/
def storkor (db : DB) (m : Medlem) : Option Kor :=
  (firstStemmegruppeVI db m).bind (fun vi =>
    (vervAv db vi.verv).bind (fun v => v.kor.bind (korAv db)))

/-- `Medlem.aktiveKor`: the choirs in which the member currently holds an active
stemmegruppe-or-director role (`Kor.objects.filter(stemmegruppeVerv(includeDirr=
True), vervInnehavelseAktiv('verv__vervInnehavelser'),
verv__vervInnehavelser__medlem=self)`).  The `orderKor` sorting is modelled as the
table order; only the resulting key set feeds the navigation tree. -/
def aktiveKor (db : DB) (m : Medlem) (dato : Dato) : List Kor :=
  db.kor.filter (fun k =>
    db.verv.any (fun v =>
      (v.kor == some k.id) && stemmegruppeVervNavn v.navn true true &&
        db.vervInnehavelser.any (fun vi =>
          vi.verv == v.id && vi.medlem == m.id && viAktiv vi dato)))

/-- A value of the navigation tree: Python `True`/`False` or a nested dict,
modelled with insertion-ordered association-list entries. -/
inductive NavVal where
  | flag : Bool → NavVal
  | node : List (String × NavVal) → NavVal

/-- Dict assignment `d[k] = v`: replace in place if the key exists, else append. -/
def navSet (d : List (String × NavVal)) (k : String) (v : NavVal) :
    List (String × NavVal) :=
  if d.any (fun kv => kv.1 == k) then
    d.map (fun kv => if kv.1 == k then (k, v) else kv)
  else d ++ [(k, v)]

/-- `dict.fromkeys(keys, True)`: insertion order of first occurrences. -/
def fromkeysTrue (keys : List String) : List (String × NavVal) :=
  keys.foldl (fun d k => navSet d k (NavVal.flag true)) []

mutual

/-- Whether a navigation value is falsy (Python `not sider[side]`), or a dict one
of whose values would make `removeFalsy` delete it at some depth — the condition
under which applying the `removeFalsy` pass crashes, see `removeFalsy`. -/
def hasFalsy : NavVal → Bool
  | NavVal.flag b => !b
  | NavVal.node d => d.isEmpty || hasFalsyList d

/-- List part of `hasFalsy`. -/
def hasFalsyList : List (String × NavVal) → Bool
  | [] => false
  | (_, v) :: rest => hasFalsy v || hasFalsyList rest

end

/-- The `removeFalsy` post-pass of `Medlem.navBar`, with Python semantics: deleting
a key during dict iteration makes the next iteration step raise `RuntimeError`, so
any falsy value at any reachable level aborts the pass; an empty dict reaches the
collapse statement `sider[side] = True` with the loop variable unbound
(`UnboundLocalError`).  Hence the pass either finds nothing falsy and leaves the
tree unchanged, or raises (`none`); the advertised collapse-to-`True` of an emptied
branch is unreachable. -/
def removeFalsy (d : List (String × NavVal)) : Option (List (String × NavVal)) :=
  if d.isEmpty || hasFalsyList d then none else some d

/-- `Medlem.navBar`: builds the navigation visibility tree.  `none` models an
uncaught exception: the `AttributeError` of `self.storkor.kortTittel` when
`storkor` is the empty string, the `KeyError` when a roster-visible right names a
choir outside the skeleton (or no choir), and the `removeFalsy` failure modes. -/
def navBar (db : DB) (m : Medlem) (dato : Dato) :
    Option (List (String × NavVal)) :=
  match storkor db m with
  | none => none
  | some sk =>
    let base :=
      (if sk.kortTittel == "TKS" then bareKorKortTittelTKS db
       else bareKorKortTittel db) ++ ["søk", "jubileum", "sjekkhefTest"]
    let sjekkheftet0 := fromkeysTrue base
    let synlige := db.tilganger.filter (fun t =>
      t.sjekkheftetSynlig &&
        !((t.kor.bind (korAv db)).map (fun k => k.kortTittel) == some "Sangern"))
    let sjekkheftetStep := fun (acc : Option (List (String × NavVal))) (t : Tilgang) =>
      acc.bind (fun sj =>
        match (t.kor.bind (korAv db)).map (fun k => k.kortTittel) with
        | none => none
        | some kt =>
          match (sj.find? (fun kv => kv.1 == kt)).map (fun kv => kv.2) with
          | none => none
          | some v =>
            let v2 := match v with
              | NavVal.flag true => NavVal.node []
              | other => other
            match v2 with
            | NavVal.node inner =>
              some (navSet sj kt (NavVal.node (navSet inner t.navn (NavVal.flag true))))
            | NavVal.flag _ => none)
    match synlige.foldl sjekkheftetStep (some sjekkheftet0) with
    | none => none
    | some sjekkheftet =>
      let sider0 := [("sjekkheftet", NavVal.node sjekkheftet)]
      let sider1 :=
        match aktiveKor db m dato with
        | [] => sider0
        | ks =>
          navSet sider0 "semesterplan"
            (NavVal.node (fromkeysTrue (ks.map (fun k => k.kortTittel))))
      let tilgangNavn := (tilganger db m dato).map (fun t => t.navn)
      let s2 := if !tilgangNavn.isEmpty then
          navSet sider1 "loggListe" (NavVal.flag true)
        else sider1
      let s3 := if tilgangNavn.contains "tversAvKor" then
          navSet (navSet (navSet (navSet (navSet s2
            "medlemListe" (NavVal.flag true))
            "vervListe" (NavVal.flag true))
            "dekorasjonListe" (NavVal.flag true))
            "turneListe" (NavVal.flag true))
            "tilgangListe" (NavVal.flag true)
        else s2
      let s4 := if tilgangNavn.contains "medlemsdata" then
          navSet s3 "medlemListe" (NavVal.flag true)
        else s3
      let s5 := if tilgangNavn.contains "semesterplan" then
          navSet s4 "hendelseListe" (NavVal.flag true)
        else s4
      let s6 := if tilgangNavn.contains "fravær" then
          navSet (navSet s5 "hendelseListe" (NavVal.flag true)) "fraværListe"
            (NavVal.node (fromkeysTrue
              ((db.kor.filter (fun k =>
                (tilganger db m dato).any (fun t =>
                  t.navn == "fravær" && t.kor == some k.id))).map
                (fun k => k.kortTittel))))
        else s5
      let s7 := if tilgangNavn.contains "vervInnehavelse" then
          navSet (navSet s6 "medlemListe" (NavVal.flag true))
            "vervListe" (NavVal.flag true)
        else s6
      let s8 := if tilgangNavn.contains "dekorasjonInnehavelse" then
          navSet (navSet s7 "medlemListe" (NavVal.flag true))
            "dekorasjonListe" (NavVal.flag true)
        else s7
      let s9 := if tilgangNavn.contains "verv" then
          navSet s8 "vervListe" (NavVal.flag true)
        else s8
      let s10 := if tilgangNavn.contains "dekorasjon" then
          navSet s9 "dekorasjonListe" (NavVal.flag true)
        else s9
      let s11 := if tilgangNavn.contains "tilgang" then
          navSet (navSet s10 "vervListe" (NavVal.flag true))
            "tilgangListe" (NavVal.flag true)
        else s10
      let s12 := if tilgangNavn.contains "turne" then
          navSet (navSet s11 "turneListe" (NavVal.flag true))
            "medlemListe" (NavVal.flag true)
        else s11
      removeFalsy s12

/-! ## Generic helpers for stating the claims -/

/-- Membership in a queryset-or-exception result: the call returned a queryset and
the row with this primary key belongs to it. -/
def optMem (pk : Nat) (o : Option (List Nat)) : Prop :=
  ∃ l, o = some l ∧ pk ∈ l

/-- The member with the `tversAvKor` preference forced to the given value and all
other stored state unchanged. -/
def setTversAvKor (m : Medlem) (b : Bool) : Medlem :=
  { m with innstillinger := { m.innstillinger with tversAvKor := b } }

/-- For a row of the guarded result models: whether the role behind it — the role
itself for `Verv`, the held role for `VervInnehavelse` — grants an access right the
member does not currently hold. -/
def vervGrantsUnheldAt (db : DB) (m : Medlem) (dato : Dato) (resModel : ModelT)
    (pk : Nat) : Bool :=
  match resModel with
  | ModelT.Verv => grantsUnheld db m dato pk
  | ModelT.VervInnehavelse =>
    match viAv db pk with
    | some vi => grantsUnheld db m dato vi.verv
    | none => false
  | _ => false

/-! ## Concrete example data used by witnesses and counterexamples -/

/-- A small state: choir 0 = TSS; member 1 holds the roles Formann (granting the
rights vervInnehavelse, tilgang and medlemsdata) and 1S, both active from day 0;
member 2 exists with the `disableTilganger` setting on. -/
def exDB : DB where
  kor := [⟨0, "TSS"⟩]
  medlemmer := [⟨1, ⟨false, true, false⟩⟩, ⟨2, ⟨true, false, false⟩⟩]
  verv := [⟨1, "Formann", some 0⟩, ⟨2, "1S", some 0⟩]
  vervInnehavelser := [⟨1, 1, 1, 0, none⟩, ⟨2, 1, 2, 0, none⟩]
  tilganger :=
    [⟨10, "vervInnehavelse", some 0, false⟩, ⟨11, "tilgang", some 0, false⟩,
     ⟨12, "medlemsdata", some 0, false⟩]
  tilgangVerv := [(10, 1), (11, 1), (12, 1)]
  dekorasjoner := []
  dekorasjonInnehavelser := []
  turneer := []

/-- The first member of `exDB`. -/
def exM1 : Medlem := ⟨1, ⟨false, true, false⟩⟩

/-- The second member of `exDB` (rights disabled by setting). -/
def exM2 : Medlem := ⟨2, ⟨true, false, false⟩⟩

/-- State for the privilege-escalation analysis: member 1 holds Styremedlem
(granting vervInnehavelse, verv and tversAvKor in choir 0) but not the meta
`tilgang` right anywhere; Formann grants the unheld medlemsdata right and is held
by somebody else (role holding 2); Sekretar grants nothing. -/
def dbC1 : DB where
  kor := [⟨0, "TSS"⟩]
  medlemmer := [⟨1, ⟨false, true, false⟩⟩]
  verv := [⟨1, "Styremedlem", some 0⟩, ⟨2, "Formann", some 0⟩, ⟨3, "Sekretar", some 0⟩]
  vervInnehavelser := [⟨1, 1, 1, 0, none⟩, ⟨2, 7, 2, 0, none⟩]
  tilganger :=
    [⟨10, "vervInnehavelse", some 0, false⟩, ⟨12, "medlemsdata", some 0, false⟩,
     ⟨13, "tversAvKor", some 0, false⟩, ⟨14, "verv", some 0, false⟩]
  tilgangVerv := [(10, 1), (14, 1), (12, 2), (13, 1)]
  dekorasjoner := []
  dekorasjonInnehavelser := []
  turneer := []

/-- The member of `dbC1`, with the `tversAvKor` setting enabled. -/
def mC1 : Medlem := ⟨1, ⟨false, true, false⟩⟩

/-- State for the viewable-set analysis: member 1 holds Formann (granting the
tversAvKor right, enabled in settings) and the voice-group role 1S, and has the
`bareAktive` setting on; member 2 holds nothing. -/
def dbC3 : DB where
  kor := [⟨0, "TSS"⟩]
  medlemmer := [⟨1, ⟨false, true, true⟩⟩, ⟨2, ⟨false, false, false⟩⟩]
  verv := [⟨1, "Formann", some 0⟩, ⟨2, "1S", some 0⟩]
  vervInnehavelser := [⟨1, 1, 1, 0, none⟩, ⟨2, 1, 2, 0, none⟩]
  tilganger := [⟨11, "tversAvKor", some 0, false⟩]
  tilgangVerv := [(11, 1)]
  dekorasjoner := []
  dekorasjonInnehavelser := []
  turneer := []

/-- The first member of `dbC3` (holds tversAvKor, has `bareAktive` enabled). -/
def mC3 : Medlem := ⟨1, ⟨false, true, true⟩⟩

/-- State for the scope-resolver analysis: member 1 once held the voice-group role
1S in choir 0, but the holding ended on day 10. -/
def dbC4 : DB where
  kor := [⟨0, "TSS"⟩]
  medlemmer := [⟨1, ⟨false, false, false⟩⟩]
  verv := [⟨1, "1S", some 0⟩]
  vervInnehavelser := [⟨1, 1, 1, 0, some 10⟩]
  tilganger := []
  tilgangVerv := []
  dekorasjoner := []
  dekorasjonInnehavelser := []
  turneer := []

/-- State for the navigation analysis: member 1 has an expired 1S holding in TSS
(so a storkor but zero active roles and zero rights); member 2 has no role holdings
at all. -/
def dbC9 : DB where
  kor := [⟨0, "TSS"⟩]
  medlemmer := [⟨1, ⟨false, false, false⟩⟩, ⟨2, ⟨false, false, false⟩⟩]
  verv := [⟨1, "1S", some 0⟩]
  vervInnehavelser := [⟨1, 1, 1, 0, some 10⟩]
  tilganger := []
  tilgangVerv := []
  dekorasjoner := []
  dekorasjonInnehavelser := []
  turneer := []

/-- Member 1 of `dbC9` (expired storkor holding). -/
def mC9a : Medlem := ⟨1, ⟨false, false, false⟩⟩

/-- Member 2 of `dbC9` (no role holdings whatsoever). -/
def mC9b : Medlem := ⟨2, ⟨false, false, false⟩⟩

/-! ## Claim theorems -/

/-- C6: the temporal interval predicate is exactly the closed-interval test, both
in the queryset form `vervInnehavelseAktiv` and in the instance property
`VervInnehavelse.aktiv`: true iff start ≤ ref and (no end, or ref ≤ end). -/
theorem aktiv_is_closed_interval_test (i me ve : Nat) (s : Dato) (e : Option Dato)
    (d : Dato) :
    (vervInnehavelseAktivQ s e d = true ↔
      s ≤ d ∧ (e = none ∨ ∃ x, e = some x ∧ d ≤ x)) ∧
    VervInnehavelse.aktiv ⟨i, me, ve, s, e⟩ d = vervInnehavelseAktivQ s e d := by
  constructor
  · cases e with
    | none => simp [vervInnehavelseAktivQ]
    | some x => simp [vervInnehavelseAktivQ, ge_iff_le]
  · cases e with
    | none => simp [vervInnehavelseAktivQ, VervInnehavelse.aktiv]
    | some x => simp [vervInnehavelseAktivQ, VervInnehavelse.aktiv, ge_iff_le]

/-- C2: when the `disableTilganger` setting is on, the held-rights computation
`Medlem.tilganger` returns the empty set, whatever the role holdings grant. -/
theorem disableTilganger_gives_no_rights (db : DB) (m : Medlem) (dato : Dato)
    (h : m.innstillinger.disableTilganger = true) :
    tilganger db m dato = [] := by
  simp [tilganger, h]

/-- C10: with a set end date and `canEqual=True` — the form in which
`VervInnehavelse.clean` and `Turne.clean` invoke it — `validateStartSlutt` raises
`invalidDateOrder` exactly when start ≥ slutt; in particular a one-day holding
(start = slutt), which the active-interval predicate counts as active on that very
day, is rejected by both clean methods and never committed by save. -/
theorem validateStartSlutt_canEqual_rejects_degenerate :
    (∀ (s e : Dato), validateStartSlutt s (some e) true =
      some FeilKode.invalidDateOrder ↔ e ≤ s) ∧
    (∀ s : Dato, validateStartSlutt s none true = none) ∧
    (∀ (db : DB) (vi : VervInnehavelse), vi.slutt = some vi.start →
      VervInnehavelse.save db vi = Except.error FeilKode.invalidDateOrder) ∧
    (∀ t : Turne, t.slutt = some t.start →
      Turne.clean t = some FeilKode.invalidDateOrder) ∧
    (∀ d : Dato, vervInnehavelseAktivQ d (some d) d = true) := by
  refine ⟨?_, ?_, ?_, ?_, ?_⟩
  · intro s e
    simp only [validateStartSlutt, if_true]
    by_cases h : e ≤ s <;> simp [h]
  · intro s
    rfl
  · intro db vi h
    have hclean : VervInnehavelse.clean db vi = some FeilKode.invalidDateOrder := by
      unfold VervInnehavelse.clean
      rw [h]
      simp [validateStartSlutt]
    unfold VervInnehavelse.save
    rw [hclean]
  · intro t h
    unfold Turne.clean
    rw [h]
    simp [validateStartSlutt]
  · intro d
    simp [vervInnehavelseAktivQ]

/-- C4 counterexample: in `dbC4` the only voice-group holding of member 1 in choir
0 ended on day 10, so at reference date 20 the member holds no active voice-group
role there; yet `getInstancesForKor` for `Medlem` still returns the member — the
member filter composes the role-name classifier with the choir scope but not the
active-interval predicate. -/
theorem getInstancesForKor_medlem_ignores_activity_cex :
    getInstancesForKor dbC4 ModelT.Medlem [0] = [1] ∧
    (1 : Nat) ∈ getInstancesForKor dbC4 ModelT.Medlem [0] ∧
    dbC4.vervInnehavelser.any (fun vi => vi.medlem == 1 && viAktiv vi 20) = false := by
  refine ⟨rfl, by decide, by decide⟩

/-- C4 (amended): `getInstancesForKor` for `Medlem` returns exactly the members
that hold SOME voice-group-or-director role holding — active or not — in one of
the given choirs; the temporal predicate is not consulted. -/
theorem getInstancesForKor_medlem_characterization (db : DB) (korIds : List Nat)
    (pk : Nat) :
    pk ∈ getInstancesForKor db ModelT.Medlem korIds ↔
      (∃ mm ∈ db.medlemmer, mm.id = pk) ∧
      ∃ vi ∈ db.vervInnehavelser, vi.medlem = pk ∧
        ∃ v, vervAv db vi.verv = some v ∧
          stemmegruppeVervNavn v.navn true true = true ∧
          ∃ k, v.kor = some k ∧ k ∈ korIds := by
  show pk ∈ (db.medlemmer.map (fun m => m.id)).filter _ ↔ _
  rw [List.mem_filter]
  constructor
  · rintro ⟨hmem, hpred⟩
    rw [List.mem_map] at hmem
    obtain ⟨mm, hmm, hid⟩ := hmem
    rw [List.any_eq_true] at hpred
    obtain ⟨vi, hvi, hb⟩ := hpred
    rw [Bool.and_eq_true] at hb
    obtain ⟨h1, h2⟩ := hb
    refine ⟨⟨mm, hmm, hid⟩, vi, hvi, by rwa [beq_iff_eq] at h1, ?_⟩
    cases hV : vervAv db vi.verv with
    | none => rw [hV] at h2; cases h2
    | some v =>
      rw [hV] at h2
      rw [Bool.and_eq_true] at h2
      obtain ⟨h3, h4⟩ := h2
      refine ⟨v, rfl, h3, ?_⟩
      cases hK : v.kor with
      | none => rw [hK] at h4; cases h4
      | some k =>
        rw [hK] at h4
        exact ⟨k, rfl, by simpa using h4⟩
  · rintro ⟨⟨mm, hmm, hid⟩, vi, hvi, hmedlem, v, hV, hnavn, k, hK, hk⟩
    constructor
    · rw [List.mem_map]
      exact ⟨mm, hmm, hid⟩
    · rw [List.any_eq_true]
      refine ⟨vi, hvi, ?_⟩
      rw [Bool.and_eq_true]
      refine ⟨by rw [beq_iff_eq]; exact hmedlem, ?_⟩
      rw [hV, Bool.and_eq_true]
      refine ⟨hnavn, ?_⟩
      rw [hK]
      simpa using hk

/-- C3 counterexample: member 1 of `dbC3` holds the tversAvKor right through an
active role holding and has the setting enabled, yet the viewable set for `Medlem`
is `[1]`, not the full instance set `[1, 2]` — the `bareAktive` setting filters the
result after the all-instances shortcut. -/
theorem tversAvKor_full_side_access_cex :
    (faktiskeTilganger dbC3 mC3 5).any (fun t => t.navn == "tversAvKor") = true ∧
    mC3.innstillinger.tversAvKor = true ∧
    harTilgangNavn dbC3 mC3 5 "tversAvKor" = true ∧
    sideTilgangQueryset dbC3 mC3 5 ModelT.Medlem = some [1] ∧
    allPks dbC3 ModelT.Medlem = [1, 2] ∧
    ¬((2 : Nat) ∈ ([1] : List Nat)) := by
  refine ⟨by decide, rfl, by decide, rfl, rfl, by decide⟩

/-- C3 (amended): when the computed held-rights set contains the tversAvKor right
(which presupposes an active granting holding, the enabled setting and no
disable-flag), `sideTilgangQueryset` returns all instances of the requested type
through the `bareAktive` decorator; in particular it returns the full instance set
whenever the type is not `Medlem` or the member's `bareAktive` setting is off. -/
theorem tversAvKor_full_side_access (db : DB) (m : Medlem) (dato : Dato)
    (model : ModelT) (h : harTilgangNavn db m dato "tversAvKor" = true) :
    sideTilgangQueryset db m dato model =
      some (bareAktiveFilter db m dato model (allPks db model)) ∧
    ((model = ModelT.Medlem → m.innstillinger.bareAktive = false) →
      sideTilgangQueryset db m dato model = some (allPks db model)) := by
  have hcore : sideTilgangQuerysetCore db m dato model = some (allPks db model) := by
    unfold sideTilgangQuerysetCore
    rw [if_pos h]
  constructor
  · unfold sideTilgangQueryset
    rw [hcore]
    rfl
  · intro hcond
    have hbaf : bareAktiveFilter db m dato model (allPks db model) =
        allPks db model := by
      unfold bareAktiveFilter
      rw [if_neg]
      rintro ⟨h1, h2⟩
      rw [hcond h1] at h2
      simp at h2
    unfold sideTilgangQueryset
    rw [hcore]
    simp [hbaf]

/-- Witness for C3 at a concrete state: member 1 of `dbC1` holds tversAvKor, the
`bareAktive` setting is off, and the viewable member set is the full member set. -/
theorem tversAvKor_full_side_access_witness :
    harTilgangNavn dbC1 mC1 5 "tversAvKor" = true ∧
    sideTilgangQueryset dbC1 mC1 5 ModelT.Medlem = some (allPks dbC1 ModelT.Medlem) :=
  ⟨by decide,
   (tversAvKor_full_side_access dbC1 mC1 5 ModelT.Medlem (by decide)).2 (fun _ => rfl)⟩

/-- C9: member 2 of `dbC9` has zero held rights and zero active role holdings, but
also no grand-choir stemmegruppe holding at all, so `storkor` is the empty-string
sentinel and `navBar` dereferences `.kortTittel` on it — an uncaught
AttributeError (`none`) instead of the roster-skeleton tree the claim promises.
Member 1, identical except for one EXPIRED holding, gets exactly the promised
roster-only tree. -/
theorem navBar_storkor_crash :
    tilganger dbC9 mC9b 100 = [] ∧
    dbC9.vervInnehavelser.any (fun vi => vi.medlem == mC9b.id && viAktiv vi 100)
      = false ∧
    storkor dbC9 mC9b = none ∧
    navBar dbC9 mC9b 100 = none ∧
    tilganger dbC9 mC9a 100 = [] ∧
    dbC9.vervInnehavelser.any (fun vi => vi.medlem == mC9a.id && viAktiv vi 100)
      = false ∧
    navBar dbC9 mC9a 100 =
      some [("sjekkheftet", NavVal.node
        [("TSS", NavVal.flag true), ("søk", NavVal.flag true),
         ("jubileum", NavVal.flag true), ("sjekkhefTest", NavVal.flag true)])] := by
  refine ⟨rfl, by decide, rfl, rfl, rfl, by decide, rfl⟩

/-- Witness for C2: member 2 of `exDB` has the disable flag set and ends up with
no rights although the database is populated. -/
theorem disableTilganger_gives_no_rights_witness :
    exM2.innstillinger.disableTilganger = true ∧ tilganger exDB exM2 0 = [] :=
  ⟨rfl, disableTilganger_gives_no_rights exDB exM2 0 rfl⟩

/-- Witness for C10: the one-day holding and tour with start = slutt = 3 are both
rejected with `invalidDateOrder`, while the interval predicate counts day 3 as
active for that very interval. -/
theorem validateStartSlutt_canEqual_rejects_degenerate_witness :
    VervInnehavelse.save exDB ⟨9, 1, 2, 3, some 3⟩ =
      Except.error FeilKode.invalidDateOrder ∧
    Turne.clean ⟨1, "Sommerturne", some 0, 3, some 3⟩ =
      some FeilKode.invalidDateOrder ∧
    vervInnehavelseAktivQ 3 (some 3) 3 = true :=
  ⟨validateStartSlutt_canEqual_rejects_degenerate.2.2.1 exDB ⟨9, 1, 2, 3, some 3⟩ rfl,
   validateStartSlutt_canEqual_rejects_degenerate.2.2.2.1
     ⟨1, "Sommerturne", some 0, 3, some 3⟩ rfl,
   validateStartSlutt_canEqual_rejects_degenerate.2.2.2.2 3⟩

/-- Unpacking the active-interval predicate: an active holding starts no later
than the reference date and, if ended, ends no earlier. -/
theorem viAktiv_le (x : VervInnehavelse) (d : Dato) (h : viAktiv x d = true) :
    x.start ≤ d ∧ ∀ s, x.slutt = some s → d ≤ s := by
  unfold viAktiv vervInnehavelseAktivQ at h
  rw [Bool.and_eq_true] at h
  obtain ⟨h1, h2⟩ := h
  refine ⟨of_decide_eq_true h1, ?_⟩
  intro s hs
  rw [hs] at h2
  simpa using h2

/-- C5: validating a role holding whose intervals pass `validateStartSlutt` raises
`overlappingVervInnehavelse` — and `save` therefore commits nothing — whenever
another holding of the same member overlaps it in time and either both roles are
voice-group roles of the same choir or the other holding is of the identical
role.  Overlap is stated as the existence of a date on which both holdings are
active. -/
theorem overlapping_vervInnehavelse_rejected (db : DB) (vi o : VervInnehavelse)
    (v : Verv)
    (hv : vervAv db vi.verv = some v)
    (hdates : validateStartSlutt vi.start vi.slutt true = none)
    (ho : o ∈ db.vervInnehavelser) (hne : ¬(o.id = vi.id)) (hm : o.medlem = vi.medlem)
    (hcase : (isStemmegruppeVervNavn v.navn true = true ∧
        ∃ ov, vervAv db o.verv = some ov ∧
          stemmegruppeVervNavn ov.navn true false = true ∧ ov.kor = v.kor) ∨
      o.verv = vi.verv)
    (hoverlap : ∃ d, viAktiv o d = true ∧ viAktiv vi d = true) :
    VervInnehavelse.save db vi = Except.error FeilKode.overlappingVervInnehavelse := by
  obtain ⟨d, hod, hvid⟩ := hoverlap
  obtain ⟨hostart, hoslutt⟩ := viAktiv_le o d hod
  obtain ⟨hvistart, hvislutt⟩ := viAktiv_le vi d hvid
  have c1 : (!(o.id == vi.id)) = true := by
    simp [hne]
  have c3 : (!(match o.slutt with
      | some s => decide (s < vi.start)
      | none => false)) = true := by
    cases hs : o.slutt with
    | none => rfl
    | some s =>
      have : vi.start ≤ s := le_trans hvistart (hoslutt s hs)
      simp [this, not_lt_of_le this]
  have c4 : (!(match vi.slutt with
      | some e => decide (e < o.start)
      | none => false)) = true := by
    cases hs : vi.slutt with
    | none => rfl
    | some e =>
      have : o.start ≤ e := le_trans hostart (hvislutt e hs)
      simp [not_lt_of_le this]
  have c5 : (o.medlem == vi.medlem) = true := by
    simp [hm]
  have hclean : VervInnehavelse.clean db vi =
      some FeilKode.overlappingVervInnehavelse := by
    unfold VervInnehavelse.clean
    simp only [hdates, hv]
    rcases hcase with ⟨hstem, ov, hov, hovstem, hovkor⟩ | hsame
    · rw [if_pos hstem, if_pos ?_]
      refine List.any_eq_true.mpr ⟨o, ho, ?_⟩
      have c2 : (match vervAv db o.verv with
          | some ov => stemmegruppeVervNavn ov.navn true false && (ov.kor == v.kor)
          | none => false) = true := by
        simp only [hov]
        rw [hovstem, hovkor]
        simp
      rw [c1, c2, c3, c4, c5]
      rfl
    · by_cases hstem : isStemmegruppeVervNavn v.navn true = true
      · rw [if_pos hstem, if_pos ?_]
        refine List.any_eq_true.mpr ⟨o, ho, ?_⟩
        have c2 : (match vervAv db o.verv with
            | some ov => stemmegruppeVervNavn ov.navn true false && (ov.kor == v.kor)
            | none => false) = true := by
          rw [hsame]
          simp only [hv]
          have : stemmegruppeVervNavn v.navn true false = true := by
            unfold isStemmegruppeVervNavn at hstem
            unfold stemmegruppeVervNavn
            rw [hstem]
            rfl
          rw [this]
          simp
        rw [c1, c2, c3, c4, c5]
        rfl
      · rw [if_neg hstem, if_pos ?_]
        refine List.any_eq_true.mpr ⟨o, ho, ?_⟩
        have c6 : (o.verv == vi.verv) = true := by
          simp [hsame]
        rw [c1, c3, c4, c5, c6]
        rfl
  unfold VervInnehavelse.save
  rw [hclean]

/-- Witness for C5: in `exDB` member 1 already holds 1S openly from day 0; a
second 1S holding from day 5 is refused and nothing is written. -/
theorem overlapping_vervInnehavelse_rejected_witness :
    VervInnehavelse.save exDB ⟨3, 1, 2, 5, none⟩ =
      Except.error FeilKode.overlappingVervInnehavelse :=
  overlapping_vervInnehavelse_rejected exDB ⟨3, 1, 2, 5, none⟩ ⟨2, 1, 2, 0, none⟩
    ⟨2, "1S", some 0⟩ rfl rfl (by decide) (by decide) rfl
    (Or.inl ⟨by decide, ⟨2, "1S", some 0⟩, rfl, by decide, rfl⟩)
    ⟨6, by decide, by decide⟩

/-! ## Lemmas about the tversAvKor preference and the resolver plumbing -/

/-- Filtering after the tversAvKor-removal filter changes nothing when the outer
predicate never selects the tversAvKor-named right. -/
theorem filter_after_tvers_filter (l : List Tilgang) (p : Tilgang → Bool)
    (hp : ∀ t, p t = true → ¬(t.navn = "tversAvKor")) :
    (l.filter (fun t => !(t.navn == "tversAvKor"))).filter p = l.filter p := by
  induction l with
  | nil => rfl
  | cons t rest ih =>
    by_cases h : t.navn = "tversAvKor"
    · have hpt : p t = false := by
        cases hq : p t
        · rfl
        · exact absurd h (hp t hq)
      simp [List.filter_cons, h, hpt, ih]
    · simp only [List.filter_cons]
      have : (!(t.navn == "tversAvKor")) = true := by
        simp [h]
      rw [this]
      simp only [if_true]
      rw [List.filter_cons, ih]

/-- Disabling the tversAvKor preference only removes the tversAvKor-named rights
from the held set. -/
theorem tilganger_setTvers_false (db : DB) (m : Medlem) (dato : Dato) :
    tilganger db (setTversAvKor m false) dato =
      (tilganger db (setTversAvKor m true) dato).filter
        (fun t => !(t.navn == "tversAvKor")) := by
  unfold tilganger setTversAvKor faktiskeTilganger
  by_cases hd : m.innstillinger.disableTilganger
  · simp [hd]
  · simp [hd]

/-- Rights held with the preference disabled are held with it enabled. -/
theorem mem_tilganger_setTvers (db : DB) (m : Medlem) (dato : Dato) (t : Tilgang)
    (h : t ∈ tilganger db (setTversAvKor m false) dato) :
    t ∈ tilganger db (setTversAvKor m true) dato := by
  rw [tilganger_setTvers_false] at h
  exact (List.mem_filter.mp h).1

/-- With the preference disabled the member never holds the tversAvKor right. -/
theorem harTvers_setTvers_false (db : DB) (m : Medlem) (dato : Dato) :
    harTilgangNavn db (setTversAvKor m false) dato "tversAvKor" = false := by
  unfold harTilgangNavn
  rw [tilganger_setTvers_false]
  cases hA : ((tilganger db (setTversAvKor m true) dato).filter
      (fun t => !(t.navn == "tversAvKor"))).any (fun t => t.navn == "tversAvKor") with
  | false => rfl
  | true =>
    exfalso
    obtain ⟨t, ht, hp⟩ := List.any_eq_true.mp hA
    have := (List.mem_filter.mp ht).2
    rw [hp] at this
    cases this

/-- Any tilganger filter that never selects the tversAvKor right is unaffected by
the preference. -/
theorem tilganger_filter_eq (db : DB) (m : Medlem) (dato : Dato) (p : Tilgang → Bool)
    (hp : ∀ t, p t = true → ¬(t.navn = "tversAvKor")) :
    (tilganger db (setTversAvKor m false) dato).filter p =
      (tilganger db (setTversAvKor m true) dato).filter p := by
  rw [tilganger_setTvers_false, filter_after_tvers_filter _ p hp]

/-- The name filters of the resolvers are unaffected by the preference whenever
the name differs from tversAvKor. -/
theorem tilganger_filter_navn_eq (db : DB) (m : Medlem) (dato : Dato) (X : String)
    (hX : ¬(X = "tversAvKor")) :
    (tilganger db (setTversAvKor m false) dato).filter (fun t => t.navn == X) =
      (tilganger db (setTversAvKor m true) dato).filter (fun t => t.navn == X) := by
  refine tilganger_filter_eq db m dato _ ?_
  intro t ht
  rw [beq_iff_eq] at ht
  rw [ht]
  exact hX

/-- The choirs where the member holds the meta access-management right are
unaffected by the preference. -/
theorem tilgangTilgangKors_setTvers_eq (db : DB) (m : Medlem) (dato : Dato) :
    tilgangTilgangKors db (setTversAvKor m false) dato =
      tilgangTilgangKors db (setTversAvKor m true) dato := by
  unfold tilgangTilgangKors
  rw [tilganger_filter_navn_eq db m dato "tilgang" (by decide)]

/-- No entity type requires the tversAvKor right for editing. -/
theorem modelTilTilgangNavn_ne_tvers (model : ModelT) (s : String)
    (h : modelTilTilgangNavn model = some s) : ¬(s = "tversAvKor") := by
  cases model <;> simp [modelTilTilgangNavn] at h <;> rw [← h] <;> decide

/-- Enabling the preference can only shrink the set of granted-but-unheld rights
of any role. -/
theorem grantsUnheld_antitone (db : DB) (m : Medlem) (dato : Dato) (vid : Nat)
    (h : grantsUnheld db (setTversAvKor m true) dato vid = true) :
    grantsUnheld db (setTversAvKor m false) dato vid = true := by
  unfold grantsUnheld at h ⊢
  rw [List.any_eq_true] at h ⊢
  obtain ⟨t, ht, hb⟩ := h
  refine ⟨t, ht, ?_⟩
  rw [Bool.and_eq_true] at hb ⊢
  obtain ⟨hpair, hunheld⟩ := hb
  refine ⟨hpair, ?_⟩
  rw [Bool.not_eq_true'] at hunheld ⊢
  cases hA : (tilganger db (setTversAvKor m false) dato).any
      (fun h => h.id == t.id) with
  | false => rfl
  | true =>
    exfalso
    obtain ⟨u, hu, hid⟩ := List.any_eq_true.mp hA
    have hu1 := mem_tilganger_setTvers db m dato u hu
    have : (tilganger db (setTversAvKor m true) dato).any
        (fun h => h.id == t.id) = true := List.any_eq_true.mpr ⟨u, hu1, hid⟩
    rw [hunheld] at this
    cases this

/-- Choirs computed by `korsMedTilganger` are rows of the choir table. -/
theorem mem_korsMedTilganger (db : DB) (ts : List Tilgang) (k : Nat)
    (h : k ∈ korsMedTilganger db ts) : k ∈ allPks db ModelT.Kor := by
  unfold korsMedTilganger at h
  rw [List.mem_map] at h
  obtain ⟨kk, hkk, hid⟩ := h
  exact List.mem_map.mpr ⟨kk, (List.mem_filter.mp hkk).1, hid⟩

/-- `getInstancesForKor` only returns rows of the requested table, provided the
choir argument only holds rows of the choir table. -/
theorem mem_getInstancesForKor_allPks (db : DB) (model : ModelT) (korIds : List Nat)
    (pk : Nat) (hkor : ∀ k ∈ korIds, k ∈ allPks db ModelT.Kor)
    (h : pk ∈ getInstancesForKor db model korIds) : pk ∈ allPks db model := by
  cases model with
  | Medlem => exact (List.mem_filter.mp h).1
  | Kor => exact hkor pk h
  | Verv => exact (List.mem_filter.mp h).1
  | VervInnehavelse => exact (List.mem_filter.mp h).1
  | Tilgang => exact (List.mem_filter.mp h).1
  | Dekorasjon => exact (List.mem_filter.mp h).1
  | DekorasjonInnehavelse => exact (List.mem_filter.mp h).1
  | Turne => exact (List.mem_filter.mp h).1

/-- The `bareAktiveDecorator` only shrinks its queryset. -/
theorem bareAktiveFilter_subset (db : DB) (m : Medlem) (dato : Dato) (r : ModelT)
    (qs : List Nat) (pk : Nat) (h : pk ∈ bareAktiveFilter db m dato r qs) :
    pk ∈ qs := by
  unfold bareAktiveFilter at h
  by_cases hc : r = ModelT.Medlem ∧ m.innstillinger.bareAktive = true
  · rw [if_pos hc] at h
    exact (List.mem_filter.mp h).1
  · rwa [if_neg hc] at h

/-- A row surviving the `bareAktiveDecorator` on one queryset survives it on any
queryset containing the row: the decorator predicate is row-local. -/
theorem bareAktiveFilter_transfer (db : DB) (m : Medlem) (dato : Dato) (r : ModelT)
    (qs qs2 : List Nat) (pk : Nat) (h : pk ∈ bareAktiveFilter db m dato r qs)
    (h2 : pk ∈ qs2) : pk ∈ bareAktiveFilter db m dato r qs2 := by
  unfold bareAktiveFilter at h ⊢
  by_cases hc : r = ModelT.Medlem ∧ m.innstillinger.bareAktive = true
  · rw [if_pos hc] at h ⊢
    exact List.mem_filter.mpr ⟨h2, (List.mem_filter.mp h).2⟩
  · rwa [if_neg hc]

/-- The decorator does not read the tversAvKor preference. -/
theorem bareAktiveFilter_setTvers (db : DB) (m : Medlem) (dato : Dato) (b : Bool)
    (r : ModelT) (qs : List Nat) :
    bareAktiveFilter db (setTversAvKor m b) dato r qs =
      bareAktiveFilter db m dato r qs := rfl

/-- Every branch of the editable-set resolver returns rows of the result model's
table. -/
theorem redigerCore_subset_allPks (db : DB) (m : Medlem) (dato : Dato)
    (model : ModelT) (rOpt : Option ModelT) (fT : Option FieldT) (l : List Nat)
    (pk : Nat) (hres : redigerTilgangQuerysetCore db m dato model rOpt fT = some l)
    (h : pk ∈ l) : pk ∈ allPks db (rOpt.getD model) := by
  simp only [redigerTilgangQuerysetCore] at hres
  by_cases h1 : rOpt ≠ none ∧ harTilgangNavn db m dato "tversAvKor" = true ∧
      model ≠ rOpt.getD model ∧
      ((fT = some FieldT.choice ∧ korAvhengerAvD model ≠ rOpt.getD model) ∨
        fT = some FieldT.multipleChoice)
  · rw [if_pos h1] at hres
    cases hres
    exact h
  · rw [if_neg h1] at hres
    by_cases h2 : model = ModelT.Medlem
    · rw [if_pos h2] at hres
      by_cases h3 : rOpt.getD model = ModelT.Medlem ∧
          harTilgangNavn db m dato "tversAvKor" = true
      · rw [if_pos h3] at hres
        cases hres
        rcases List.mem_append.mp h with hL | hR
        · exact mem_getInstancesForKor_allPks db _ _ pk
            (fun k hk => mem_korsMedTilganger db _ k hk) hL
        · rw [h3.1]
          exact (List.mem_filter.mp hR).1
      · rw [if_neg h3] at hres
        cases hres
        exact mem_getInstancesForKor_allPks db _ _ pk
          (fun k hk => mem_korsMedTilganger db _ k hk) h
    · rw [if_neg h2] at hres
      cases hmt : modelTilTilgangNavn model with
      | none =>
        rw [hmt] at hres
        cases hres
      | some tN =>
        simp only [hmt] at hres
        by_cases h4 : (model = ModelT.Verv ∨ model = ModelT.VervInnehavelse) ∧
            (rOpt.getD model = ModelT.Verv ∨ rOpt.getD model = ModelT.VervInnehavelse)
        · rw [if_pos h4] at hres
          by_cases h5 : rOpt.getD model = ModelT.Verv
          · rw [if_pos h5] at hres
            cases hres
            exact mem_getInstancesForKor_allPks db _ _ pk
              (fun k hk => mem_korsMedTilganger db _ k hk) (List.mem_filter.mp h).1
          · rw [if_neg h5] at hres
            cases hres
            exact mem_getInstancesForKor_allPks db _ _ pk
              (fun k hk => mem_korsMedTilganger db _ k hk) (List.mem_filter.mp h).1
        · rw [if_neg h4] at hres
          cases hres
          exact mem_getInstancesForKor_allPks db _ _ pk
            (fun k hk => mem_korsMedTilganger db _ k hk) h

/-- Decorated version: the editable set only holds rows of the result table. -/
theorem rediger_subset_allPks (db : DB) (m : Medlem) (dato : Dato) (model : ModelT)
    (rOpt : Option ModelT) (fT : Option FieldT) (l : List Nat) (pk : Nat)
    (hres : redigerTilgangQueryset db m dato model rOpt fT = some l) (h : pk ∈ l) :
    pk ∈ allPks db (rOpt.getD model) := by
  unfold redigerTilgangQueryset at hres
  obtain ⟨l0, hcore, hl⟩ := Option.map_eq_some'.mp hres
  subst hl
  exact redigerCore_subset_allPks db m dato model rOpt fT l0 pk hcore
    (bareAktiveFilter_subset db m dato _ l0 pk h)

/-- The editable-set resolver only raises (returns `none`) on the static-table
lookup: when the guard branch is unreachable and the entity type has no required
right, independently of the member.  Hence a successful call for one member is
successful for every member, as long as the first member cannot take the
cross-model shortcut. -/
theorem redigerCore_some_of_noTvers (db : DB) (m0 m1 : Medlem) (dato : Dato)
    (model : ModelT) (rOpt : Option ModelT) (fT : Option FieldT) (l : List Nat)
    (hT : harTilgangNavn db m0 dato "tversAvKor" = false)
    (h : redigerTilgangQuerysetCore db m0 dato model rOpt fT = some l) :
    ∃ l2, redigerTilgangQuerysetCore db m1 dato model rOpt fT = some l2 := by
  have hkey : model = ModelT.Medlem ∨
      (¬(model = ModelT.Medlem) ∧ ∃ tN, modelTilTilgangNavn model = some tN) := by
    by_cases h2 : model = ModelT.Medlem
    · exact Or.inl h2
    · refine Or.inr ⟨h2, ?_⟩
      cases hmt : modelTilTilgangNavn model with
      | some tN => exact ⟨tN, rfl⟩
      | none =>
        exfalso
        simp only [redigerTilgangQuerysetCore] at h
        rw [if_neg ?_, if_neg h2, hmt] at h
        · cases h
        · rintro ⟨_, hh, _⟩
          rw [hT] at hh
          cases hh
  simp only [redigerTilgangQuerysetCore]
  by_cases h1 : rOpt ≠ none ∧ harTilgangNavn db m1 dato "tversAvKor" = true ∧
      model ≠ rOpt.getD model ∧
      ((fT = some FieldT.choice ∧ korAvhengerAvD model ≠ rOpt.getD model) ∨
        fT = some FieldT.multipleChoice)
  · rw [if_pos h1]
    exact ⟨_, rfl⟩
  · rw [if_neg h1]
    rcases hkey with h2 | ⟨h2, tN, hmt⟩
    · rw [if_pos h2]
      by_cases h3 : rOpt.getD model = ModelT.Medlem ∧
          harTilgangNavn db m1 dato "tversAvKor" = true
      · rw [if_pos h3]
        exact ⟨_, rfl⟩
      · rw [if_neg h3]
        exact ⟨_, rfl⟩
    · rw [if_neg h2]
      simp only [hmt]
      by_cases h4 : (model = ModelT.Verv ∨ model = ModelT.VervInnehavelse) ∧
          (rOpt.getD model = ModelT.Verv ∨ rOpt.getD model = ModelT.VervInnehavelse)
      · rw [if_pos h4]
        by_cases h5 : rOpt.getD model = ModelT.Verv
        · rw [if_pos h5]
          exact ⟨_, rfl⟩
        · rw [if_neg h5]
          exact ⟨_, rfl⟩
      · rw [if_neg h4]
        exact ⟨_, rfl⟩

/-- The privilege-escalation guard for roles keeps at least as much when the
tversAvKor preference is enabled. -/
theorem guard_verv_monotone (db : DB) (m : Medlem) (dato : Dato) (pk : Nat)
    (h : (!(!korInB ((vervAv db pk).bind (fun v => v.kor))
          (tilgangTilgangKors db (setTversAvKor m false) dato) &&
        grantsUnheld db (setTversAvKor m false) dato pk)) = true) :
    (!(!korInB ((vervAv db pk).bind (fun v => v.kor))
          (tilgangTilgangKors db (setTversAvKor m true) dato) &&
        grantsUnheld db (setTversAvKor m true) dato pk)) = true := by
  rw [← tilgangTilgangKors_setTvers_eq db m dato]
  rw [Bool.not_eq_true'] at h ⊢
  cases hX : (!korInB ((vervAv db pk).bind (fun v => v.kor))
      (tilgangTilgangKors db (setTversAvKor m false) dato)) with
  | false => simp [hX]
  | true =>
    rw [hX, Bool.true_and] at h
    rw [Bool.true_and]
    cases hg : grantsUnheld db (setTversAvKor m true) dato pk with
    | false => rfl
    | true =>
      have := grantsUnheld_antitone db m dato pk hg
      rw [h] at this
      cases this

/-- The privilege-escalation guard for role holdings keeps at least as much when
the tversAvKor preference is enabled. -/
theorem guard_vi_monotone (db : DB) (m : Medlem) (dato : Dato) (pk : Nat)
    (h : (!(!korInB ((viAv db pk).bind (fun vi =>
            (vervAv db vi.verv).bind (fun v => v.kor)))
          (tilgangTilgangKors db (setTversAvKor m false) dato) &&
        (match viAv db pk with
         | some vi => grantsUnheld db (setTversAvKor m false) dato vi.verv
         | none => false))) = true) :
    (!(!korInB ((viAv db pk).bind (fun vi =>
            (vervAv db vi.verv).bind (fun v => v.kor)))
          (tilgangTilgangKors db (setTversAvKor m true) dato) &&
        (match viAv db pk with
         | some vi => grantsUnheld db (setTversAvKor m true) dato vi.verv
         | none => false))) = true := by
  rw [← tilgangTilgangKors_setTvers_eq db m dato]
  cases hvi : viAv db pk with
  | none =>
    simp only [hvi]
    simp
  | some vi =>
    simp only [hvi] at h ⊢
    rw [Bool.not_eq_true'] at h ⊢
    cases hX : (!korInB ((some vi).bind (fun vi =>
        (vervAv db vi.verv).bind (fun v => v.kor)))
        (tilgangTilgangKors db (setTversAvKor m false) dato)) with
    | false => simp [hX]
    | true =>
      rw [hX, Bool.true_and] at h
      rw [Bool.true_and]
      cases hg : grantsUnheld db (setTversAvKor m true) dato vi.verv with
      | false => rfl
      | true =>
        have := grantsUnheld_antitone db m dato vi.verv hg
        rw [h] at this
        cases this

/-- Core monotonicity of the editable-set resolver in the tversAvKor preference:
whatever is editable with the preference disabled is editable with it enabled. -/
theorem redigerCore_tvers_monotone (db : DB) (m : Medlem) (dato : Dato)
    (model : ModelT) (rOpt : Option ModelT) (fT : Option FieldT) (pk : Nat)
    (h : optMem pk (redigerTilgangQuerysetCore db (setTversAvKor m false) dato
      model rOpt fT)) :
    optMem pk (redigerTilgangQuerysetCore db (setTversAvKor m true) dato
      model rOpt fT) := by
  obtain ⟨l, hres, hmem⟩ := h
  have hT0 := harTvers_setTvers_false db m dato
  have hAll : pk ∈ allPks db (rOpt.getD model) :=
    redigerCore_subset_allPks db _ dato model rOpt fT l pk hres hmem
  have hnot1 : ¬(rOpt ≠ none ∧
      harTilgangNavn db (setTversAvKor m false) dato "tversAvKor" = true ∧
      model ≠ rOpt.getD model ∧
      ((fT = some FieldT.choice ∧ korAvhengerAvD model ≠ rOpt.getD model) ∨
        fT = some FieldT.multipleChoice)) := by
    rintro ⟨_, hh, _⟩
    rw [hT0] at hh
    cases hh
  simp only [redigerTilgangQuerysetCore] at hres
  rw [if_neg hnot1] at hres
  simp only [redigerTilgangQuerysetCore]
  by_cases h1 : rOpt ≠ none ∧
      harTilgangNavn db (setTversAvKor m true) dato "tversAvKor" = true ∧
      model ≠ rOpt.getD model ∧
      ((fT = some FieldT.choice ∧ korAvhengerAvD model ≠ rOpt.getD model) ∨
        fT = some FieldT.multipleChoice)
  · rw [if_pos h1]
    exact ⟨_, rfl, hAll⟩
  · rw [if_neg h1]
    by_cases h2 : model = ModelT.Medlem
    · rw [if_pos h2] at hres ⊢
      have hmedfil := tilganger_filter_navn_eq db m dato "medlemsdata" (by decide)
      have hnot3 : ¬(rOpt.getD model = ModelT.Medlem ∧
          harTilgangNavn db (setTversAvKor m false) dato "tversAvKor" = true) := by
        rintro ⟨_, hh⟩
        rw [hT0] at hh
        cases hh
      rw [if_neg hnot3] at hres
      cases hres
      by_cases h3 : rOpt.getD model = ModelT.Medlem ∧
          harTilgangNavn db (setTversAvKor m true) dato "tversAvKor" = true
      · rw [if_pos h3]
        refine ⟨_, rfl, List.mem_append_left _ ?_⟩
        rwa [hmedfil] at hmem
      · rw [if_neg h3]
        refine ⟨_, rfl, ?_⟩
        rwa [hmedfil] at hmem
    · rw [if_neg h2] at hres ⊢
      cases hmt : modelTilTilgangNavn model with
      | none =>
        rw [hmt] at hres
        cases hres
      | some tN =>
        simp only [hmt] at hres ⊢
        have hfil := tilganger_filter_navn_eq db m dato tN
          (modelTilTilgangNavn_ne_tvers model tN hmt)
        by_cases h4 : (model = ModelT.Verv ∨ model = ModelT.VervInnehavelse) ∧
            (rOpt.getD model = ModelT.Verv ∨ rOpt.getD model = ModelT.VervInnehavelse)
        · rw [if_pos h4] at hres ⊢
          by_cases h5 : rOpt.getD model = ModelT.Verv
          · rw [if_pos h5] at hres ⊢
            cases hres
            obtain ⟨hrq, hpred⟩ := List.mem_filter.mp hmem
            refine ⟨_, rfl, List.mem_filter.mpr ⟨?_, ?_⟩⟩
            · rwa [hfil] at hrq
            · exact guard_verv_monotone db m dato pk hpred
          · rw [if_neg h5] at hres ⊢
            cases hres
            obtain ⟨hrq, hpred⟩ := List.mem_filter.mp hmem
            refine ⟨_, rfl, List.mem_filter.mpr ⟨?_, ?_⟩⟩
            · rwa [hfil] at hrq
            · exact guard_vi_monotone db m dato pk hpred
        · rw [if_neg h4] at hres ⊢
          cases hres
          refine ⟨_, rfl, ?_⟩
          rwa [hfil] at hmem

/-- Every branch of the viewable-set resolver core returns rows of the requested
table. -/
theorem sideCore_subset_allPks (db : DB) (m : Medlem) (dato : Dato) (model : ModelT)
    (l : List Nat) (pk : Nat)
    (hres : sideTilgangQuerysetCore db m dato model = some l) (h : pk ∈ l) :
    pk ∈ allPks db model := by
  simp only [sideTilgangQuerysetCore] at hres
  by_cases hT : harTilgangNavn db m dato "tversAvKor" = true
  · rw [if_pos hT] at hres
    cases hres
    exact h
  · rw [if_neg hT] at hres
    by_cases hrel : (modelWithRelated model).filterMap modelTilTilgangNavn ≠ [] ∧
        (tilganger db m dato).filter (fun t =>
          ((modelWithRelated model).filterMap modelTilTilgangNavn).contains t.navn)
          ≠ []
    · rw [if_pos hrel] at hres
      obtain ⟨r, hr, hl⟩ := Option.map_eq_some'.mp hres
      subst hl
      rcases List.mem_append.mp h with hL | hR
      · exact mem_getInstancesForKor_allPks db model _ pk
          (fun k hk => mem_korsMedTilganger db _ k hk) hL
      · exact rediger_subset_allPks db m dato model none none r pk hr hR
    · rw [if_neg hrel] at hres
      exact rediger_subset_allPks db m dato model none none l pk hres h

/-- Decorated monotonicity of the editable-set resolver in the tversAvKor
preference. -/
theorem rediger_tvers_monotone (db : DB) (m : Medlem) (dato : Dato) (model : ModelT)
    (rOpt : Option ModelT) (fT : Option FieldT) (pk : Nat)
    (h : optMem pk (redigerTilgangQueryset db (setTversAvKor m false) dato
      model rOpt fT)) :
    optMem pk (redigerTilgangQueryset db (setTversAvKor m true) dato
      model rOpt fT) := by
  obtain ⟨l, hres, hmem⟩ := h
  unfold redigerTilgangQueryset at hres
  obtain ⟨l0, hcore, hl⟩ := Option.map_eq_some'.mp hres
  subst hl
  have hpk0 : pk ∈ l0 := bareAktiveFilter_subset db _ dato _ l0 pk hmem
  obtain ⟨l1, hcore1, hmem1⟩ :=
    redigerCore_tvers_monotone db m dato model rOpt fT pk ⟨l0, hcore, hpk0⟩
  refine ⟨_, by unfold redigerTilgangQueryset; rw [hcore1]; rfl, ?_⟩
  rw [bareAktiveFilter_setTvers]
  rw [bareAktiveFilter_setTvers] at hmem
  exact bareAktiveFilter_transfer db m dato _ l0 l1 pk hmem hmem1

/-- The related-rights filter of the viewable-set resolver never selects the
tversAvKor right, so it is unaffected by the preference. -/
theorem relaterte_filter_setTvers_eq (db : DB) (m : Medlem) (dato : Dato)
    (model : ModelT) :
    (tilganger db (setTversAvKor m false) dato).filter (fun t =>
        ((modelWithRelated model).filterMap modelTilTilgangNavn).contains t.navn) =
      (tilganger db (setTversAvKor m true) dato).filter (fun t =>
        ((modelWithRelated model).filterMap modelTilTilgangNavn).contains t.navn) := by
  refine tilganger_filter_eq db m dato _ ?_
  intro t ht hEq
  rw [hEq] at ht
  cases model <;> revert ht <;> decide

/-- Core monotonicity of the viewable-set resolver in the tversAvKor
preference. -/
theorem sideCore_tvers_monotone (db : DB) (m : Medlem) (dato : Dato)
    (model : ModelT) (pk : Nat)
    (h : optMem pk (sideTilgangQuerysetCore db (setTversAvKor m false) dato model)) :
    optMem pk (sideTilgangQuerysetCore db (setTversAvKor m true) dato model) := by
  obtain ⟨l, hres, hmem⟩ := h
  have hT0 := harTvers_setTvers_false db m dato
  have hAll : pk ∈ allPks db model :=
    sideCore_subset_allPks db _ dato model l pk hres hmem
  have hnotT : ¬(harTilgangNavn db (setTversAvKor m false) dato "tversAvKor"
      = true) := by
    rw [hT0]
    exact Bool.false_ne_true
  simp only [sideTilgangQuerysetCore] at hres
  rw [if_neg hnotT] at hres
  simp only [sideTilgangQuerysetCore]
  by_cases hT1 : harTilgangNavn db (setTversAvKor m true) dato "tversAvKor" = true
  · rw [if_pos hT1]
    exact ⟨_, rfl, hAll⟩
  · rw [if_neg hT1]
    have hrelfil := relaterte_filter_setTvers_eq db m dato model
    by_cases hrel0 : (modelWithRelated model).filterMap modelTilTilgangNavn ≠ [] ∧
        (tilganger db (setTversAvKor m false) dato).filter (fun t =>
          ((modelWithRelated model).filterMap modelTilTilgangNavn).contains t.navn)
          ≠ []
    · rw [if_pos hrel0] at hres
      have hrel1 : (modelWithRelated model).filterMap modelTilTilgangNavn ≠ [] ∧
          (tilganger db (setTversAvKor m true) dato).filter (fun t =>
            ((modelWithRelated model).filterMap modelTilTilgangNavn).contains t.navn)
            ≠ [] := by
        refine ⟨hrel0.1, ?_⟩
        rw [← hrelfil]
        exact hrel0.2
      rw [if_pos hrel1]
      obtain ⟨r0, hr0, hl0⟩ := Option.map_eq_some'.mp hres
      subst hl0
      rcases List.mem_append.mp hmem with hL | hR
      · have hsome1 : ∃ r1, redigerTilgangQueryset db (setTversAvKor m true) dato
            model none none = some r1 := by
          unfold redigerTilgangQueryset at hr0 ⊢
          obtain ⟨c0, hc0, hc0b⟩ := Option.map_eq_some'.mp hr0
          obtain ⟨c1, hc1⟩ := redigerCore_some_of_noTvers db _ _ dato model none
            none c0 hT0 hc0
          exact ⟨_, by rw [hc1]; rfl⟩
        obtain ⟨r1, hr1⟩ := hsome1
        refine ⟨_, by rw [hr1]; rfl, List.mem_append_left _ ?_⟩
        rwa [hrelfil] at hL
      · obtain ⟨r1, hr1, hmem1⟩ :=
          rediger_tvers_monotone db m dato model none none pk ⟨r0, hr0, hR⟩
        exact ⟨_, by rw [hr1]; rfl, List.mem_append_right _ hmem1⟩
    · rw [if_neg hrel0] at hres
      have hrel1 : ¬((modelWithRelated model).filterMap modelTilTilgangNavn ≠ [] ∧
          (tilganger db (setTversAvKor m true) dato).filter (fun t =>
            ((modelWithRelated model).filterMap modelTilTilgangNavn).contains t.navn)
            ≠ []) := by
        rintro ⟨ha, hb⟩
        refine hrel0 ⟨ha, ?_⟩
        rw [hrelfil]
        exact hb
      rw [if_neg hrel1]
      exact rediger_tvers_monotone db m dato model none none pk ⟨l, hres, hmem⟩

/-- C7: with all stored state fixed, enabling the member's tversAvKor preference
never removes an instance from any editable set (`redigerTilgangQueryset`, for
every entity type, related type and field kind) or any viewable set
(`sideTilgangQueryset`, for every entity type). -/
theorem tversAvKor_setting_monotone (db : DB) (m : Medlem) (dato : Dato)
    (model : ModelT) (rOpt : Option ModelT) (fT : Option FieldT) (pk : Nat) :
    (optMem pk (redigerTilgangQueryset db (setTversAvKor m false) dato
        model rOpt fT) →
      optMem pk (redigerTilgangQueryset db (setTversAvKor m true) dato
        model rOpt fT)) ∧
    (optMem pk (sideTilgangQueryset db (setTversAvKor m false) dato model) →
      optMem pk (sideTilgangQueryset db (setTversAvKor m true) dato model)) := by
  constructor
  · exact rediger_tvers_monotone db m dato model rOpt fT pk
  · intro h
    obtain ⟨l, hres, hmem⟩ := h
    unfold sideTilgangQueryset at hres
    obtain ⟨l0, hcore, hl⟩ := Option.map_eq_some'.mp hres
    subst hl
    have hpk0 := bareAktiveFilter_subset db _ dato _ l0 pk hmem
    obtain ⟨l1, hcore1, hmem1⟩ :=
      sideCore_tvers_monotone db m dato model pk ⟨l0, hcore, hpk0⟩
    refine ⟨_, by unfold sideTilgangQueryset; rw [hcore1]; rfl, ?_⟩
    rw [bareAktiveFilter_setTvers]
    rw [bareAktiveFilter_setTvers] at hmem
    exact bareAktiveFilter_transfer db m dato model l0 l1 pk hmem hmem1

/-- Witness for C7: in `dbC1`, the role Sekretar (pk 3) is editable and its page
viewable with the preference disabled, and stays so with it enabled. -/
theorem tversAvKor_setting_monotone_witness :
    optMem 3 (redigerTilgangQueryset dbC1 (setTversAvKor mC1 true) 5
      ModelT.Verv none none) ∧
    optMem 3 (sideTilgangQueryset dbC1 (setTversAvKor mC1 true) 5 ModelT.Verv) :=
  ⟨(tversAvKor_setting_monotone dbC1 mC1 5 ModelT.Verv none none 3).1
      ⟨[3], rfl, by decide⟩,
   (tversAvKor_setting_monotone dbC1 mC1 5 ModelT.Verv none none 3).2
      ⟨[1, 2, 3, 3], rfl, by decide⟩⟩

/-- C8: for every member and entity type, the viewable set contains the (default)
editable set: `sideTilgangQueryset` never loses an instance that
`redigerTilgangQueryset` grants. -/
theorem side_contains_rediger (db : DB) (m : Medlem) (dato : Dato) (model : ModelT)
    (pk : Nat) (h : optMem pk (redigerTilgangQueryset db m dato model none none)) :
    optMem pk (sideTilgangQueryset db m dato model) := by
  obtain ⟨l, hresFull, hmem⟩ := h
  have hres := hresFull
  unfold redigerTilgangQueryset at hres
  obtain ⟨l0, hcore, hl⟩ := Option.map_eq_some'.mp hres
  subst hl
  have hpk0 : pk ∈ l0 := bareAktiveFilter_subset db m dato _ l0 pk hmem
  have hAll : pk ∈ allPks db model :=
    redigerCore_subset_allPks db m dato model none none l0 pk hcore hpk0
  unfold sideTilgangQueryset
  simp only [sideTilgangQuerysetCore]
  by_cases hT : harTilgangNavn db m dato "tversAvKor" = true
  · rw [if_pos hT]
    exact ⟨_, rfl, bareAktiveFilter_transfer db m dato model l0 _ pk hmem hAll⟩
  · rw [if_neg hT]
    by_cases hrel : (modelWithRelated model).filterMap modelTilTilgangNavn ≠ [] ∧
        (tilganger db m dato).filter (fun t =>
          ((modelWithRelated model).filterMap modelTilTilgangNavn).contains t.navn)
          ≠ []
    · rw [if_pos hrel, hresFull]
      exact ⟨_, rfl, bareAktiveFilter_transfer db m dato model l0 _ pk hmem
        (List.mem_append_right _ hmem)⟩
    · rw [if_neg hrel, hresFull]
      exact ⟨_, rfl, bareAktiveFilter_transfer db m dato model l0 _ pk hmem hmem⟩

/-- Witness for C8: role holding 1 of `exDB` is editable for member 1 and indeed
shows up in the viewable set. -/
theorem side_contains_rediger_witness :
    optMem 1 (sideTilgangQueryset exDB exM1 5 ModelT.VervInnehavelse) :=
  side_contains_rediger exDB exM1 5 ModelT.VervInnehavelse 1 ⟨[1, 2], rfl, by decide⟩

/-- C1 counterexample: member 1 of `dbC1` holds the vervInnehavelse right in choir
0 and holds no `tilgang` right there, exactly the hypotheses of the claim; yet —
because the member also holds tversAvKor — the editable RoleHolding set returned
for the cross-model call (`model = Verv`, `resModel = VervInnehavelse`, a
multiple-choice field) is every holding, including holding 2, whose role is in
choir 0 and grants the `medlemsdata` right the member does not hold. -/
theorem guard_blocks_escalation_cex :
    (tilganger dbC1 mC1 5).any (fun t =>
      t.navn == "vervInnehavelse" && t.kor == some 0) = true ∧
    (tilgangTilgangKors dbC1 mC1 5).contains 0 = false ∧
    redigerTilgangQueryset dbC1 mC1 5 ModelT.Verv (some ModelT.VervInnehavelse)
      (some FieldT.multipleChoice) = some [1, 2] ∧
    (2 : Nat) ∈ ([1, 2] : List Nat) ∧
    korAvPk dbC1 ModelT.VervInnehavelse 2 = some 0 ∧
    vervGrantsUnheldAt dbC1 mC1 5 ModelT.VervInnehavelse 2 = true := by
  refine ⟨by decide, by decide, rfl, by decide, rfl, by decide⟩

/-- C1 (amended): if the member holds the vervInnehavelse right for choir X but
neither the meta `tilgang` right in X nor — the amendment — the tversAvKor right
(whose cross-model shortcut skips the guard), then the editable set computed by
`redigerTilgangQueryset` for Verv or VervInnehavelse, under any parameters, never
contains a role in X (or a holding of a role in X) granting a right the member
does not hold. -/
theorem guard_blocks_escalation (db : DB) (m : Medlem) (dato : Dato) (X : Nat)
    (model : ModelT) (rOpt : Option ModelT) (fT : Option FieldT) (pk : Nat)
    (hmodel : model = ModelT.Verv ∨ model = ModelT.VervInnehavelse)
    (hres2 : rOpt.getD model = ModelT.Verv ∨ rOpt.getD model = ModelT.VervInnehavelse)
    (hVIrett : (tilganger db m dato).any (fun t =>
      t.navn == "vervInnehavelse" && t.kor == some X) = true)
    (hNoTilgangX : (tilgangTilgangKors db m dato).contains X = false)
    (hNoTvers : harTilgangNavn db m dato "tversAvKor" = false)
    (hmem : optMem pk (redigerTilgangQueryset db m dato model rOpt fT))
    (hkor : korAvPk db (rOpt.getD model) pk = some X) :
    vervGrantsUnheldAt db m dato (rOpt.getD model) pk = false := by
  obtain ⟨l, hres, hl⟩ := hmem
  unfold redigerTilgangQueryset at hres
  obtain ⟨l0, hcore, hbaf⟩ := Option.map_eq_some'.mp hres
  subst hbaf
  have hpk0 : pk ∈ l0 := bareAktiveFilter_subset db m dato _ l0 pk hl
  have hnot1 : ¬(rOpt ≠ none ∧ harTilgangNavn db m dato "tversAvKor" = true ∧
      model ≠ rOpt.getD model ∧
      ((fT = some FieldT.choice ∧ korAvhengerAvD model ≠ rOpt.getD model) ∨
        fT = some FieldT.multipleChoice)) := by
    rintro ⟨_, hh, _⟩
    rw [hNoTvers] at hh
    cases hh
  simp only [redigerTilgangQuerysetCore] at hcore
  rw [if_neg hnot1] at hcore
  have hKorIn : korInB (some X) (tilgangTilgangKors db m dato) = false := by
    simp only [korInB]
    exact hNoTilgangX
  rcases hmodel with hm | hm <;> subst hm
  · rw [if_neg (by decide : ¬(ModelT.Verv = ModelT.Medlem))] at hcore
    simp only [modelTilTilgangNavn] at hcore
    rw [if_pos ⟨Or.inl trivial, hres2⟩] at hcore
    rcases hres2 with h5 | h5
    · rw [if_pos h5] at hcore
      cases hcore
      have hpred := (List.mem_filter.mp hpk0).2
      have hkor2 : (vervAv db pk).bind (fun v => v.kor) = some X := by
        rw [h5] at hkor
        exact hkor
      rw [hkor2, hKorIn] at hpred
      simp only [Bool.not_false, Bool.true_and, Bool.not_eq_true'] at hpred
      rw [h5]
      simp only [vervGrantsUnheldAt]
      exact hpred
    · rw [if_neg (by rw [h5]; decide)] at hcore
      cases hcore
      have hpred := (List.mem_filter.mp hpk0).2
      have hkor2 : (viAv db pk).bind (fun vi =>
          (vervAv db vi.verv).bind (fun v => v.kor)) = some X := by
        rw [h5] at hkor
        exact hkor
      rw [hkor2, hKorIn] at hpred
      simp only [Bool.not_false, Bool.true_and, Bool.not_eq_true'] at hpred
      rw [h5]
      simp only [vervGrantsUnheldAt]
      exact hpred
  · rw [if_neg (by decide : ¬(ModelT.VervInnehavelse = ModelT.Medlem))] at hcore
    simp only [modelTilTilgangNavn] at hcore
    rw [if_pos ⟨Or.inr trivial, hres2⟩] at hcore
    rcases hres2 with h5 | h5
    · rw [if_pos h5] at hcore
      cases hcore
      have hpred := (List.mem_filter.mp hpk0).2
      have hkor2 : (vervAv db pk).bind (fun v => v.kor) = some X := by
        rw [h5] at hkor
        exact hkor
      rw [hkor2, hKorIn] at hpred
      simp only [Bool.not_false, Bool.true_and, Bool.not_eq_true'] at hpred
      rw [h5]
      simp only [vervGrantsUnheldAt]
      exact hpred
    · rw [if_neg (by rw [h5]; decide)] at hcore
      cases hcore
      have hpred := (List.mem_filter.mp hpk0).2
      have hkor2 : (viAv db pk).bind (fun vi =>
          (vervAv db vi.verv).bind (fun v => v.kor)) = some X := by
        rw [h5] at hkor
        exact hkor
      rw [hkor2, hKorIn] at hpred
      simp only [Bool.not_false, Bool.true_and, Bool.not_eq_true'] at hpred
      rw [h5]
      simp only [vervGrantsUnheldAt]
      exact hpred

/-- Witness for C1 at a concrete state: member 1 of `dbC1` with the preference
disabled holds vervInnehavelse in choir 0 only; the editable role set is `[3]`
(Sekretar), and Sekretar indeed grants no unheld right. -/
theorem guard_blocks_escalation_witness :
    vervGrantsUnheldAt dbC1 (setTversAvKor mC1 false) 5 ModelT.Verv 3 = false :=
  guard_blocks_escalation dbC1 (setTversAvKor mC1 false) 5 0 ModelT.Verv none none 3
    (Or.inl rfl) (Or.inl rfl) (by decide) (by decide) (by decide)
    ⟨[3], rfl, by decide⟩ rfl

end Mytxs
